import Mathlib

/-!
Verification of the subfix converter core (subfix/converter/manager.py and
subfix/utils/path.py, string.py) against its specification.

Paths are modeled as normalized absolute strings under POSIX conventions, so
that os.path.abspath is the identity on the paths handled by the program.
The filesystem is modeled as a finite set of existing regular-file paths and
directory paths.  Python string methods used by the source are embedded as
py_-prefixed functions over the character-list representation of String.
-/

/-- Python str.lower (over the ASCII-and-beyond chars used here). -/
def py_lower (s : String) : String := ⟨s.data.map Char.toLower⟩

/-- Helper for Python substring containment: does pat occur inside l? -/
def has_substring (pat : List Char) : List Char → Bool
  | [] => pat.isEmpty
  | a :: rest => pat.isPrefixOf (a :: rest) || has_substring pat rest

/-- Python `pat in s` (substring containment). -/
def py_contains (s pat : String) : Bool := has_substring pat.data s.data

/-- Python str.startswith. -/
def py_startswith (s p : String) : Bool := p.data.isPrefixOf s.data

/-- Python str.endswith. -/
def py_endswith (s p : String) : Bool := p.data.isSuffixOf s.data

/-- Python str.isspace: non-empty and every character is whitespace. -/
def py_isspace (s : String) : Bool := !s.data.isEmpty && s.data.all Char.isWhitespace

/-- Python str.rstrip(c): drop trailing occurrences of the character c. -/
def py_rstrip (s : String) (c : Char) : String :=
  ⟨(s.data.reverse.dropWhile (· == c)).reverse⟩

/-- Python str.lstrip(c): drop leading occurrences of the character c. -/
def py_lstrip (s : String) (c : Char) : String := ⟨s.data.dropWhile (· == c)⟩

/-- Python str.replace over char lists: replace every non-overlapping
occurrence of pat, scanning left to right.  The fuel argument makes the
recursion structural; every step consumes at least one character, so fuel
equal to the list length (as supplied by list_replace below) is never
exhausted.  (For the empty pattern this returns the input unchanged, which
agrees with Python whenever the replacement is the empty string — the only
way the source calls it.) -/
def list_replace_fuel (pat rep : List Char) : Nat → List Char → List Char
  | _, [] => []
  | 0, l => l
  | f+1, a :: rest =>
    if pat ≠ [] ∧ pat.isPrefixOf (a :: rest) then
      rep ++ list_replace_fuel pat rep f ((a :: rest).drop pat.length)
    else
      a :: list_replace_fuel pat rep f rest

/-- Python str.replace over char lists, entry point. -/
def list_replace (pat rep l : List Char) : List Char :=
  list_replace_fuel pat rep l.length l

/-- Python str.replace (all occurrences). -/
def py_replace (s pat rep : String) : String := ⟨list_replace pat.data rep.data s.data⟩

/-- os.path.isabs on POSIX: the path starts with a slash. -/
def isabs (p : String) : Bool := py_startswith p "/"

/-- The source's repeated normalization file_path.rstrip('/').rstrip('\\'). -/
def strip_seps (p : String) : String := py_rstrip (py_rstrip p '/') '\\'

/-- Index one past the last '/' of the path (0 when there is none),
mirroring posixpath's rfind-based split. -/
def last_sep_cut (p : String) : Nat :=
  match p.data.reverse.findIdx? (· == '/') with
  | none => 0
  | some j => p.data.length - j

/-- os.path.basename on POSIX: everything after the last '/'. -/
def basename (p : String) : String := ⟨p.data.drop (last_sep_cut p)⟩

/-- os.path.dirname on POSIX: everything before the last '/', with trailing
slashes stripped unless the head consists only of slashes. -/
def dirname (p : String) : String :=
  let head := p.data.take (last_sep_cut p)
  if head.isEmpty || head.all (· == '/') then ⟨head⟩
  else ⟨(head.reverse.dropWhile (· == '/')).reverse⟩

/-- os.path.join on POSIX for the two-argument form used by the source. -/
def os_join (d b : String) : String :=
  if isabs b then b
  else if d = "" || py_endswith d "/" then d ++ b
  else d ++ "/" ++ b

/-- os.path.abspath.  In this model every path handled by the program is an
already-normalized absolute string, on which abspath is the identity. -/
def os_abspath (p : String) : String := p

/-- subfix.utils.path.normalize_file_name: replace each filesystem-unsafe
character with a dash. -/
def normalize_file_name (file_name : String) : String :=
  ⟨file_name.data.map (fun c =>
    if ['\\', '/', '*', '<', '>', ':', '"', '|', '?'].contains c then '-' else c)⟩

/-- subfix.utils.path.get_name: base name of the path, optionally with the
extension (the part after the final dot of the base name) removed. -/
def get_name (file_path : String) (keep_extension : Bool) : String :=
  let fp := py_rstrip (py_rstrip file_path '/') '\\'
  let base_name := basename fp
  if keep_extension then base_name
  else
    let parts := base_name.data.splitOn '.'
    let parts := if parts.length > 1 then parts.dropLast else parts
    ⟨List.intercalate ['.'] parts⟩

/-- subfix.utils.path.get_extension: delete every occurrence of the
dot-stripped base name from the (unstripped) base name, then trim leading
dots.  Note this equals the text after the last dot only when the
dot-stripped name does not reoccur inside the base name. -/
def get_extension (file_path : String) : String :=
  let no_extension_name := get_name file_path false
  let base_name := basename file_path
  py_lstrip (py_replace base_name no_extension_name "") '.'

/-- ConverterManager._extract_name: directory, base name without extension,
and extension of a path. -/
def extract_name (file_path : String) : String × String × String :=
  (dirname file_path, get_name file_path false, get_extension file_path)

/-- EncodingEnum.UTF8. -/
def UTF8 : String := "utf-8"

/-- EncodingEnum.CP1256. -/
def CP1256 : String := "cp1256"

/-- ConverterManager.FALLBACK_ENCODING. -/
def FALLBACK_ENCODING : String := CP1256

/-- ConverterManager.DEFAULT_ENCODING. -/
def DEFAULT_ENCODING : String := UTF8

/-- ConverterManager.CONFIDENCE_THRESHOLD.  Detector confidences are modeled
as rationals in [0, 1]. -/
def CONFIDENCE_THRESHOLD : ℚ := 7/10

/-- ConverterManager.get_encoding, parameterized by the detector's result
(label and confidence) since the byte-level classifier is an external
collaborator.  A missing label or a confidence below the threshold falls
back to CP1256; a label containing utf8/utf-8 (case-insensitively) with
confidence at or above the threshold is normalized to the canonical UTF-8
label; any other label with sufficient confidence is returned verbatim. -/
def get_encoding (encoding : Option String) (confidence : ℚ) : String :=
  match encoding with
  | some enc =>
    if (py_contains (py_lower enc) "utf8" || py_contains (py_lower enc) "utf-8") = true
        ∧ CONFIDENCE_THRESHOLD ≤ confidence then UTF8
    else if CONFIDENCE_THRESHOLD ≤ confidence then enc
    else FALLBACK_ENCODING
  | none => FALLBACK_ENCODING

/-- The filesystem state visible to the converter: the finite sets of
existing regular-file paths and existing directory paths (normalized
absolute strings). -/
structure FileSystem where
  files : List String
  dirs : List String
deriving DecidableEq

/-- os.path.exists. -/
def path_exists (fs : FileSystem) (p : String) : Bool :=
  decide (p ∈ fs.files) || decide (p ∈ fs.dirs)

/-- os.path.isfile. -/
def is_file (fs : FileSystem) (p : String) : Bool := decide (p ∈ fs.files)

/-- os.path.isdir. -/
def is_dir (fs : FileSystem) (p : String) : Bool := decide (p ∈ fs.dirs)

/-- The length of the longest existing path (0 for an empty filesystem);
used to bound the disambiguation recursion. -/
def max_path_len (fs : FileSystem) : Nat :=
  ((fs.files ++ fs.dirs).map String.length).foldr max 0

/-- Errors raised by the target-path resolver: PathIsNotAbsoluteError
(carrying the offending path) and FileAlreadyExistedError (whose message
names the colliding path). -/
inductive ResolveError
  | notAbsolute (path : String)
  | fileExisted (path : String)
deriving DecidableEq

/-- The keyword options consulted by ConverterManager._generate_target_path. -/
structure ResolveOptions where
  target_directory : Option String := none
  target_file : Option String := none
  suffix : Option String := none
  slug_length : Option Int := none
deriving DecidableEq

/-- ConverterManager._make_name: join directory and file name, then dot-join
base, slug, suffix and extension, dropping empty slug/suffix.  The
directory must be absolute (assert_absolute). -/
def make_name (directory file_name extension : String) (slug suffix : Option String) :
    Except ResolveError String :=
  if isabs directory = false then .error (.notAbsolute directory)
  else
    let slug := slug.getD ""
    let suffix := suffix.getD ""
    let base := os_abspath (os_join directory file_name)
    if 0 < slug.length ∧ 0 < suffix.length then
      .ok (base ++ "." ++ slug ++ "." ++ suffix ++ "." ++ extension)
    else if 0 < slug.length ∧ suffix.length = 0 then
      .ok (base ++ "." ++ slug ++ "." ++ extension)
    else if slug.length = 0 ∧ 0 < suffix.length then
      .ok (base ++ "." ++ suffix ++ "." ++ extension)
    else
      .ok (base ++ "." ++ extension)

/-- The effective slug length: a missing or negative option counts as 0. -/
def eff_slug (o : ResolveOptions) : Nat :=
  match o.slug_length with
  | none => 0
  | some n => n.toNat

/-- Result of target-path resolution.  The source recursion has no explicit
bound (it terminates because the filesystem is finite), so the embedding
carries a fuel counter; outOfFuel never occurs for sufficient fuel, which is
proved below. -/
inductive Resolved
  | ok (path : String)
  | err (e : ResolveError)
  | outOfFuel
deriving DecidableEq

/-- ConverterManager._generate_target_path.  The random slug generator is
modeled as the parameter gen; the source's generate_slug returns a string of
exactly the requested length.  Every return branch is guarded by an
existence check against the live filesystem state fs; on a double collision
with positive slug length it retries with the slug length incremented by
one and the destination pinned. -/
def generate_target_path (fs : FileSystem) (gen : Nat → String) :
    Nat → String → ResolveOptions → Resolved
  | 0, _, _ => .outOfFuel
  | fuel+1, file_path, o =>
    let fp := strip_seps file_path
    if isabs fp = false then .err (.notAbsolute fp)
    else
      let target_file := normalize_file_name (o.target_file.getD "")
      let suffix := o.suffix.getD ""
      let tdChecked : Except ResolveError (Option String) :=
        match o.target_directory with
        | none => .ok none
        | some td0 =>
          let td := strip_seps td0
          if isabs td = false then .error (.notAbsolute td) else .ok (some td)
      match tdChecked with
      | .error e => .err e
      | .ok tdOpt =>
        let slug_length := eff_slug o
        let slug := gen slug_length
        let (ddir0, dname0, ext) := extract_name fp
        let destination_dir :=
          match tdOpt with
          | some td => if td = "" then ddir0 else td
          | none => ddir0
        let destination_name :=
          if target_file ≠ "" ∧ py_isspace target_file = false then target_file else dname0
        match make_name destination_dir destination_name ext none (some suffix),
              make_name destination_dir destination_name ext (some slug) (some suffix) with
        | .error e, _ => .err e
        | .ok _, .error e => .err e
        | .ok new_path, .ok new_duplicate_path =>
          if path_exists fs new_path = false then .ok new_path
          else if path_exists fs new_duplicate_path = false then .ok new_duplicate_path
          else if 0 < slug_length then
            generate_target_path fs gen fuel fp
              { target_directory := some destination_dir,
                target_file := some destination_name,
                suffix := o.suffix,
                slug_length := some ((slug_length : Int) + 1) }
          else .err (.fileExisted new_path)

/-- Outcome of one ConverterManager.convert attempt.  The per-file
conversion performs file reads and writes; in this embedding it is
abstracted as an oracle returning success, a recognized domain failure
(a SubfixException, carrying its message), or any other exception. -/
inductive ConvertOutcome
  | success
  | domainError (msg : String)
  | otherError (msg : String)
deriving DecidableEq

/-- Observable result of ConverterManager.batch_convert: a normal return,
one of the immediate validation errors, an immediately re-raised per-file
error (silent false), or the aggregated BatchConvertError carrying the
failure count and the file-to-message ledger. -/
inductive BatchResult
  | ok
  | invalidSourceDir
  | targetNotEmpty (target root : String)
  | invalidTargetDir (target : String)
  | raisedDomain (msg : String)
  | raisedEncoding (file msg : String)
  | batchError (count : Nat) (failed : List (String × String))
deriving DecidableEq

/-- The keyword options of ConverterManager.batch_convert.  The
from_encoding/to_encoding options are consumed only inside the abstracted
per-file conversion and are therefore not modeled here. -/
structure BatchOptions where
  target_directory : Option String := none
  fixed_name : Option String := none
  sequence_naming : Option Bool := none
  suffix : Option String := none
  slug_length : Option Int := none
  extensions : Option (List String) := none
  silent : Option Bool := none
deriving DecidableEq

/-- ConverterManager.SUBTITLE_EXTENSIONS. -/
def SUBTITLE_EXTENSIONS : List String := ["srt"]

/-- ConverterManager.DEFAULT_SLUG_LENGTH. -/
def DEFAULT_SLUG_LENGTH : Int := 3

/-- ConverterManager._is_subtitle: the lowercased file name ends with one of
the accepted lowercased extensions (default srt). -/
def is_subtitle (file_name : String) (extensions : Option (List String)) : Bool :=
  let exts := match extensions with
    | none => SUBTITLE_EXTENSIONS
    | some l => if l.length ≤ 0 then SUBTITLE_EXTENSIONS else l
  exts.any (fun e => py_endswith (py_lower file_name) (py_lower e))

/-- ConverterManager._contains_files: the directory exists and has at least
one regular file among its direct children (os.listdir inspects direct
children only). -/
def contains_files (fs : FileSystem) (directory : String) : Bool :=
  if is_dir fs directory = false then false
  else fs.files.any (fun f => decide (dirname f = directory))

/-- ConverterManager._discover_subtitles: every regular file under the
source directory (recursively) whose name matches the accepted extensions.
The os.walk enumeration and the final set collapse are modeled as a filter
over the filesystem's duplicate-free file list, in list order. -/
def discover_subtitles (fs : FileSystem) (source_directory : String)
    (extensions : Option (List String)) : List String :=
  fs.files.filter (fun f =>
    py_startswith f (source_directory ++ "/") && is_subtitle f extensions)

/-- Whether an explicit target directory was given, as batch_convert tests
it: the option is neither absent nor the empty string. -/
def has_target_dir (o : BatchOptions) : Bool :=
  !(o.target_directory = none ∨ o.target_directory = some "" : Bool)

/-- The slug_length batch_convert passes to each conversion: lines 229-231
default it to DEFAULT_SLUG_LENGTH when the caller gave none AND the
caller's sequence_naming flag (defaulting to False, and read before the
forcing rule below) is not True. -/
def effective_slug_length_option (o : BatchOptions) : Option Int :=
  if o.slug_length = none ∧ o.sequence_naming.getD false = false then
    some DEFAULT_SLUG_LENGTH
  else o.slug_length

/-- The sequence_naming value batch_convert ends up with: lines 233-235
force it to True whenever a fixed name or an explicit target directory was
given; otherwise it is the caller's flag (default False). -/
def effective_sequence_naming (o : BatchOptions) : Bool :=
  if ¬(o.fixed_name = none ∨ o.fixed_name = some "") ∨ has_target_dir o = true then true
  else o.sequence_naming.getD false

/-- ConverterManager._concat: dot-join two strings, dropping empty parts. -/
def concat_dot (start final : String) : String :=
  if start ≠ "" ∧ final ≠ "" then start ++ "." ++ final
  else if start ≠ "" then start
  else if final ≠ "" then final
  else ""

/-- The resolver options each convert call receives from batch_convert:
the (canonicalized) target directory, the fixed name as target_file, the
defaulted slug length, and — when sequence naming is active — the per-file
suffix made of the 1-based sequence number dot-joined with the caller's
suffix (the suffix option was popped from the batch options, so without
sequence naming the conversion sees no suffix at all). -/
def per_file_options (o : BatchOptions) (seq_naming : Bool) (suffix : String)
    (sequence : Nat) : ResolveOptions :=
  { target_directory := o.target_directory,
    target_file := o.fixed_name,
    suffix := if seq_naming then some (concat_dot (toString sequence) suffix) else none,
    slug_length := effective_slug_length_option o }

/-- The conversion walk of batch_convert (lines 241-264): try each file in
order with its 1-based sequence number; a failure is re-raised at once when
silent is false, and otherwise recorded in the ledger; at the end a
non-empty ledger is raised as the aggregated BatchConvertError. -/
def batch_loop (attempt : Nat → String → ConvertOutcome) (silent : Bool) :
    List String → Nat → List (String × String) → BatchResult
  | [], _, failed =>
    if 0 < failed.length then .batchError failed.length failed else .ok
  | sub :: rest, sequence, failed =>
    match attempt sequence sub with
    | .success => batch_loop attempt silent rest (sequence + 1) failed
    | .domainError msg =>
      if silent = false then .raisedDomain msg
      else batch_loop attempt silent rest (sequence + 1) (failed ++ [(sub, msg)])
    | .otherError msg =>
      if silent = false then .raisedEncoding sub msg
      else batch_loop attempt silent rest (sequence + 1) (failed ++ [(sub, msg)])

/-- ConverterManager.batch_convert, with the per-file conversion abstracted
as the oracle convert (receiving the file and the effective resolver
options).  Validation happens before any conversion: the source directory
must exist; an explicit target directory nested in the source directory and
already containing a regular file is rejected at once, as is a target
directory that is an existing regular file. -/
def batch_convert (fs : FileSystem) (convert : String → ResolveOptions → ConvertOutcome)
    (source_directory : String) (o : BatchOptions) : BatchResult :=
  if is_dir fs source_directory = false then .invalidSourceDir
  else
    let src := os_abspath source_directory
    let td := o.target_directory.map os_abspath
    let has_target := has_target_dir o
    if has_target = true ∧ py_startswith (td.getD "") src = true
        ∧ contains_files fs (td.getD "") = true then
      .targetNotEmpty (td.getD "") src
    else if has_target = true ∧ is_file fs (td.getD "") = true then
      .invalidTargetDir (td.getD "")
    else
      let o := { o with target_directory := td }
      let suffix := o.suffix.getD ""
      let seq_naming := effective_sequence_naming o
      let silent := o.silent.getD true
      let subtitles := discover_subtitles fs src o.extensions
      batch_loop
        (fun sequence sub => convert sub (per_file_options o seq_naming suffix sequence))
        silent subtitles 1 []

theorem str_append_assoc (a b c : String) : a ++ b ++ c = a ++ (b ++ c) := by
  rcases a with ⟨la⟩; rcases b with ⟨lb⟩; rcases c with ⟨lc⟩
  show String.mk (la ++ lb ++ lc) = String.mk (la ++ (lb ++ lc))
  rw [List.append_assoc]

theorem str_length_append (a b : String) : (a ++ b).length = a.length + b.length := by
  rcases a with ⟨la⟩; rcases b with ⟨lb⟩
  show (la ++ lb).length = la.length + lb.length
  exact List.length_append la lb

theorem str_length_eq_zero_iff (s : String) : s.length = 0 ↔ s = "" := by
  rcases s with ⟨l⟩
  cases l with
  | nil => simp
  | cons a t =>
    constructor
    · intro h
      simp [String.length] at h
    · intro h
      have := congrArg String.data h
      simp at this

theorem str_length_pos_iff (s : String) : 0 < s.length ↔ s ≠ "" := by
  rw [Nat.pos_iff_ne_zero, not_iff_not]
  exact str_length_eq_zero_iff s

/-- C3: for every file, the encoding oracle returns the canonical UTF-8
label when the detector reports a label containing utf-8 or utf8 (any case)
with confidence at least 0.7, and returns the fixed CP1256 fallback label
whenever the detector reports no label, or a confidence below 0.7
regardless of the raw label. -/
theorem c3_encoding_policy :
    (∀ enc conf,
      (py_contains (py_lower enc) "utf8" || py_contains (py_lower enc) "utf-8") = true →
      CONFIDENCE_THRESHOLD ≤ conf → get_encoding (some enc) conf = UTF8)
    ∧ (∀ conf, get_encoding none conf = FALLBACK_ENCODING)
    ∧ (∀ enc conf, conf < CONFIDENCE_THRESHOLD →
        get_encoding (some enc) conf = FALLBACK_ENCODING) := by
  refine ⟨?_, ?_, ?_⟩
  · intro enc conf hm hc
    simp [get_encoding, hm, hc]
  · intro conf
    rfl
  · intro enc conf hc
    have h : ¬ CONFIDENCE_THRESHOLD ≤ conf := not_le.mpr hc
    simp [get_encoding, h]

/-- Witness for C3 at concrete detector outputs. -/
theorem c3_encoding_policy_witness :
    get_encoding (some "UTF-8") (4/5) = UTF8
    ∧ get_encoding none (99/100) = FALLBACK_ENCODING
    ∧ get_encoding (some "ascii") (1/2) = FALLBACK_ENCODING :=
  ⟨c3_encoding_policy.1 "UTF-8" (4/5) (by decide)
      (by norm_num [CONFIDENCE_THRESHOLD]),
   c3_encoding_policy.2.1 (99/100),
   c3_encoding_policy.2.2 "ascii" (1/2) (by norm_num [CONFIDENCE_THRESHOLD])⟩

/-- C10 counterexample: the detector label utf-8 with confidence 0.5 is sent
to the CP1256 fallback, not returned verbatim — so a matching label alone
does not prevent the fallback and the acceptance gate is not disjunctive. -/
theorem c10_utf8_low_confidence_counterexample :
    get_encoding (some "utf-8") (1/2) = FALLBACK_ENCODING
    ∧ FALLBACK_ENCODING ≠ "utf-8" := by
  constructor
  · have h : ¬ CONFIDENCE_THRESHOLD ≤ (1/2 : ℚ) := by norm_num [CONFIDENCE_THRESHOLD]
    simp only [get_encoding]
    rw [if_neg (fun hab => h hab.2), if_neg h]
  · decide

/-- C10 amended: whenever the detector returns a label containing
utf8/utf-8 (any case), the oracle returns the canonical UTF-8 label if the
confidence is at least 0.7 and the CP1256 fallback otherwise — the
acceptance gate is conjunctive (label matches AND confidence at or above
the threshold), so a matching label with low confidence still falls back. -/
theorem c10_utf8_gate_amended :
    ∀ enc conf,
      (py_contains (py_lower enc) "utf8" || py_contains (py_lower enc) "utf-8") = true →
      (CONFIDENCE_THRESHOLD ≤ conf → get_encoding (some enc) conf = UTF8)
      ∧ (conf < CONFIDENCE_THRESHOLD → get_encoding (some enc) conf = FALLBACK_ENCODING) := by
  intro enc conf hm
  constructor
  · intro hc
    simp [get_encoding, hm, hc]
  · intro hc
    have h : ¬ CONFIDENCE_THRESHOLD ≤ conf := not_le.mpr hc
    simp [get_encoding, h]

/-- Witness for the amended C10 at concrete detector outputs. -/
theorem c10_utf8_gate_amended_witness :
    get_encoding (some "UTF8") (9/10) = UTF8
    ∧ get_encoding (some "UTF8") (1/3) = FALLBACK_ENCODING :=
  ⟨(c10_utf8_gate_amended "UTF8" (9/10) (by decide)).1
      (by norm_num [CONFIDENCE_THRESHOLD]),
   (c10_utf8_gate_amended "UTF8" (1/3) (by decide)).2
      (by norm_num [CONFIDENCE_THRESHOLD])⟩

/-- C4 counterexample: with an explicit target directory, no caller
sequence-naming flag and no caller slug length, sequence naming ends up
forced to true, yet the slug length is still defaulted to 3 rather than
left as given — because batch_convert applies the default before the
forcing rule. -/
theorem c4_slug_default_counterexample :
    effective_sequence_naming { target_directory := some "/t" } = true
    ∧ ({ target_directory := some "/t" } : BatchOptions).slug_length = none
    ∧ effective_slug_length_option { target_directory := some "/t" }
        = some DEFAULT_SLUG_LENGTH := by
  refine ⟨?_, rfl, ?_⟩ <;> decide

/-- C4 amended: the slug-length default of 3 applies exactly when the
caller did not specify a slug length and the caller's sequence-naming flag
(read before the forcing rule) is not true; a given slug length (including
0) is always left as given, a caller flag of true suppresses the default,
but forcing by target directory or fixed name does not — and the resulting
value is what every per-file conversion receives. -/
theorem c4_slug_default_amended (o : BatchOptions) :
    (o.slug_length = none ∧ o.sequence_naming.getD false = false →
      effective_slug_length_option o = some DEFAULT_SLUG_LENGTH)
    ∧ (o.slug_length ≠ none ∨ o.sequence_naming = some true →
      effective_slug_length_option o = o.slug_length)
    ∧ (∀ seq_naming suffix sequence,
      (per_file_options o seq_naming suffix sequence).slug_length
        = effective_slug_length_option o) := by
  refine ⟨?_, ?_, ?_⟩
  · intro h
    simp [effective_slug_length_option, h.1, h.2]
  · intro h
    unfold effective_slug_length_option
    rw [if_neg]
    intro hand
    rcases h with h | h
    · exact h hand.1
    · rw [h] at hand
      simp at hand
  · intro _ _ _
    rfl

/-- Witness for the amended C4 at concrete batch options. -/
theorem c4_slug_default_amended_witness :
    effective_slug_length_option {} = some DEFAULT_SLUG_LENGTH
    ∧ effective_slug_length_option { slug_length := some 0 } = some 0 :=
  ⟨(c4_slug_default_amended {}).1 ⟨rfl, rfl⟩,
   (c4_slug_default_amended { slug_length := some 0 }).2.1 (Or.inl (by simp))⟩

/-- Modelled from the spec's name-assembly rule: a dot-joined list of
components. -/
def dot_join : List String → String
  | [] => ""
  | [s] => s
  | s :: rest => s ++ "." ++ dot_join rest

/-- Modelled from the spec's name-assembly rule: base, then slug if
non-empty, then suffix if non-empty, then extension, dot-joined with every
empty component dropped. -/
def spec_assemble (base slug suffix extension : String) : String :=
  dot_join ([base]
    ++ (if slug = "" then [] else [slug])
    ++ (if suffix = "" then [] else [suffix])
    ++ [extension])

/-- C5: the name-assembly function joins exactly base, then slug if
non-empty, then suffix if non-empty, then extension, with dot separators
and empty components dropped; in particular an empty slug and suffix yield
base.ext, and (base, ab, 2, srt) yields base.ab.2.srt. -/
theorem c5_make_name_assembly (dir fn ext slug suffix : String) (h : isabs dir = true) :
    make_name dir fn ext (some slug) (some suffix)
      = .ok (spec_assemble (os_abspath (os_join dir fn)) slug suffix ext)
    ∧ make_name dir fn ext (some "") (some "")
      = .ok (os_abspath (os_join dir fn) ++ "." ++ ext)
    ∧ make_name dir fn "srt" (some "ab") (some "2")
      = .ok (os_abspath (os_join dir fn) ++ ".ab.2.srt") := by
  refine ⟨?_, ?_, ?_⟩
  · by_cases hs : slug = "" <;> by_cases hx : suffix = ""
    · simp [make_name, h, hs, hx, spec_assemble, dot_join]
    · have hxl : 0 < suffix.length := (str_length_pos_iff suffix).mpr hx
      simp [make_name, h, hs, hx, hxl, spec_assemble, dot_join, str_append_assoc]
    · have hsl : 0 < slug.length := (str_length_pos_iff slug).mpr hs
      simp [make_name, h, hs, hx, hsl, spec_assemble, dot_join, str_append_assoc]
    · have hsl : 0 < slug.length := (str_length_pos_iff slug).mpr hs
      have hxl : 0 < suffix.length := (str_length_pos_iff suffix).mpr hx
      have hxz : ¬ suffix.length = 0 := by omega
      simp [make_name, h, hs, hx, hsl, hxl, hxz, spec_assemble, dot_join, str_append_assoc]
  · simp [make_name, h]
  · simp only [make_name, h]
    norm_num
    simp only [str_append_assoc]
    congr 1

/-- Witness for C5 at a concrete directory, name and components. -/
theorem c5_make_name_assembly_witness :
    make_name "/d" "f" "srt" (some "ab") (some "2")
      = .ok (spec_assemble (os_abspath (os_join "/d" "f")) "ab" "2" "srt")
    ∧ make_name "/d" "f" "srt" (some "") (some "")
      = .ok (os_abspath (os_join "/d" "f") ++ "." ++ "srt")
    ∧ make_name "/d" "f" "srt" (some "ab") (some "2")
      = .ok (os_abspath (os_join "/d" "f") ++ ".ab.2.srt") :=
  c5_make_name_assembly "/d" "f" "srt" "ab" "2" (by decide)

theorem gtp_ok_not_exists (fs : FileSystem) (gen : Nat → String) :
    ∀ (fuel : Nat) (fp : String) (o : ResolveOptions) (p : String),
      generate_target_path fs gen fuel fp o = .ok p → path_exists fs p = false := by
  intro fuel
  induction fuel with
  | zero =>
    intro fp o p h
    simp [generate_target_path] at h
  | succ n ih =>
    intro fp o p h
    simp only [generate_target_path] at h
    repeat' split at h
    all_goals first
      | exact ih _ _ _ h
      | (rw [Resolved.ok.injEq] at h; rw [← h]; assumption)
      | simp at h

/-- C1: every path the target-path resolver returns does not exist on the
filesystem at resolution time (each return branch is guarded by a
non-existence check against live filesystem state); consequently, once a
returned path is written to disk, no later resolution against a filesystem
containing it can return it again, so two distinct source files in one
batch never receive the same destination path. -/
theorem c1_resolver_path_uniqueness
    (fs : FileSystem) (gen : Nat → String) (fuel : Nat) (fp : String)
    (o : ResolveOptions) (p : String)
    (h : generate_target_path fs gen fuel fp o = .ok p) :
    path_exists fs p = false
    ∧ ∀ (fs' : FileSystem) (gen' : Nat → String) (fuel' : Nat) (fp' : String)
        (o' : ResolveOptions) (p' : String),
        path_exists fs' p = true →
        generate_target_path fs' gen' fuel' fp' o' = .ok p' → p' ≠ p := by
  refine ⟨gtp_ok_not_exists fs gen fuel fp o p h, ?_⟩
  intro fs' gen' fuel' fp' o' p' hmem h' heq
  have := gtp_ok_not_exists fs' gen' fuel' fp' o' p' h'
  rw [heq] at this
  rw [this] at hmem
  exact Bool.false_ne_true hmem

/-- Witness for C1: a batch whose first resolution returns a slugged path,
which a second resolution (after the file is written) can then never
return. -/
theorem c1_resolver_path_uniqueness_witness :
    path_exists ⟨["/s/a.srt"], ["/s"]⟩ "/s/a.aaa.srt" = false :=
  (c1_resolver_path_uniqueness ⟨["/s/a.srt"], ["/s"]⟩
    (fun n => ⟨List.replicate n 'a'⟩) 1 "/s/a.srt" { slug_length := some 3 }
    "/s/a.aaa.srt" (by decide)).1

theorem make_name_ok_ext_shape (d f e : String) (sl su : Option String) (v : String)
    (h : make_name d f e sl su = .ok v) : ∃ q, v = q ++ ("." ++ e) := by
  simp only [make_name] at h
  split at h
  · simp at h
  · split at h
    · rw [Except.ok.injEq] at h
      exact ⟨_, by rw [← h, str_append_assoc]⟩
    · split at h
      · rw [Except.ok.injEq] at h
        exact ⟨_, by rw [← h, str_append_assoc]⟩
      · split at h
        · rw [Except.ok.injEq] at h
          exact ⟨_, by rw [← h, str_append_assoc]⟩
        · rw [Except.ok.injEq] at h
          exact ⟨_, by rw [← h, str_append_assoc]⟩

/-- Modelled from the spec's words in C9: the text after the last dot of a
name (the whole name when it has no dot). -/
def spec_after_last_dot (s : String) : String :=
  ⟨(s.data.reverse.takeWhile (fun c => !(c == '.'))).reverse⟩

/-- C9 counterexample: for the source file /d/aa.aa (whose dot-stripped base
name recurs inside the base name) the resolver produces /d/aa. — the
computed extension is empty, not the text aa after the last dot, so the
destination does not end in .aa. -/
theorem c9_extension_counterexample :
    generate_target_path ⟨[], []⟩ (fun n => ⟨List.replicate n 'a'⟩)
      1 "/d/aa.aa" {} = .ok "/d/aa."
    ∧ get_extension "/d/aa.aa" = ""
    ∧ spec_after_last_dot (basename "/d/aa.aa") = "aa"
    ∧ py_endswith "/d/aa." ".aa" = false := by decide

/-- C9 amended: for every conversion the destination path always ends with
a dot followed by get_extension of the source file — the extension computed
from the source (which coincides with the text after the last dot except
when the dot-stripped base name reoccurs inside the base name) — and this
holds for every target-file-name option, so an explicit target name never
contributes the extension. -/
theorem c9_extension_amended (fs : FileSystem) (gen : Nat → String) :
    ∀ (fuel : Nat) (fp : String) (o : ResolveOptions) (p : String),
      strip_seps fp = fp →
      generate_target_path fs gen fuel fp o = .ok p →
      ∃ q, p = q ++ ("." ++ get_extension fp) := by
  intro fuel
  induction fuel with
  | zero =>
    intro fp o p _ h
    simp [generate_target_path] at h
  | succ n ih =>
    intro fp o p hfp h
    simp only [generate_target_path] at h
    rw [hfp] at h
    repeat' split at h
    all_goals first
      | exact ih _ _ _ hfp h
      | (rw [Resolved.ok.injEq] at h
         rw [← h]
         simp only [extract_name] at *
         exact make_name_ok_ext_shape _ _ _ _ _ _ (by assumption))
      | simp at h

/-- Witness for the amended C9 at a concrete resolution. -/
theorem c9_extension_amended_witness :
    ∃ q, "/s/a.aaa.srt" = q ++ ("." ++ get_extension "/s/a.srt") :=
  c9_extension_amended ⟨["/s/a.srt"], ["/s"]⟩ (fun n => ⟨List.replicate n 'a'⟩)
    1 "/s/a.srt" { slug_length := some 3 } "/s/a.aaa.srt" (by decide) (by decide)

/-- C6: when the plain candidate already exists but the slugged candidate
does not, the resolver returns the slugged candidate; and with slug length
0 (so the generated slug is empty and the slugged candidate coincides with
the plain one) an existing plain candidate makes the resolver fail with the
file-already-exists error identifying the colliding plain-candidate path.
Stated for a call whose options are already in the resolver's canonical
form (absolute stripped paths and a normalized non-blank target name). -/
theorem c6_resolver_collision_branches
    (fs : FileSystem) (gen : Nat → String) (fuel : Nat)
    (fp td tf suffix : String) (sl : Nat)
    (plain slugged : String)
    (hfp : strip_seps fp = fp) (habs : isabs fp = true)
    (htd : strip_seps td = td) (htdabs : isabs td = true) (htdne : td ≠ "")
    (htf : normalize_file_name tf = tf) (htfne : tf ≠ "") (htfsp : py_isspace tf = false)
    (hmkp : make_name td tf (get_extension fp) none (some suffix) = .ok plain)
    (hmks : make_name td tf (get_extension fp) (some (gen sl)) (some suffix) = .ok slugged) :
    (path_exists fs plain = true → path_exists fs slugged = false →
      generate_target_path fs gen (fuel + 1) fp
        { target_directory := some td, target_file := some tf,
          suffix := some suffix, slug_length := some (sl : Int) }
        = .ok slugged)
    ∧ (sl = 0 → gen 0 = "" → path_exists fs plain = true →
      generate_target_path fs gen (fuel + 1) fp
        { target_directory := some td, target_file := some tf,
          suffix := some suffix, slug_length := some (sl : Int) }
        = .err (.fileExisted plain)) := by
  have hslug : eff_slug { target_directory := some td, target_file := some tf,
                          suffix := some suffix,
                          slug_length := some ((sl : Int)) } = sl := by
    simp [eff_slug]
  constructor
  · intro hex hnex
    simp only [generate_target_path, hfp, habs, htd, htdabs, hslug, extract_name]
    simp only [Bool.true_eq_false, if_false]
    simp [htf, htdne, htfne, htfsp, hmkp, hmks, hex, hnex]
  · intro hsl0 hgen hex
    subst hsl0
    have hnoneeq : make_name td tf (get_extension fp) (some (gen 0)) (some suffix)
        = make_name td tf (get_extension fp) none (some suffix) := by
      rw [hgen]
      rfl
    have hps : slugged = plain := by
      rw [hnoneeq, hmkp] at hmks
      exact ((Except.ok.injEq _ _).mp hmks).symm
    simp only [generate_target_path, hfp, habs, htd, htdabs, hslug, extract_name]
    simp only [Bool.true_eq_false, if_false]
    simp [htf, htdne, htfne, htfsp, hmkp, hnoneeq, hex, hps]

/-- Witness for C6: both collision branches at a concrete filesystem. -/
theorem c6_resolver_collision_branches_witness :
    generate_target_path ⟨["/t/f.2.srt"], ["/t"]⟩ (fun n => ⟨List.replicate n 'a'⟩)
      1 "/s/f.srt"
      { target_directory := some "/t", target_file := some "f",
        suffix := some "2", slug_length := some ((1 : Nat) : Int) }
      = .ok "/t/f.a.2.srt"
    ∧ generate_target_path ⟨["/t/f.2.srt"], ["/t"]⟩ (fun n => ⟨List.replicate n 'a'⟩)
      1 "/s/f.srt"
      { target_directory := some "/t", target_file := some "f",
        suffix := some "2", slug_length := some ((0 : Nat) : Int) }
      = .err (.fileExisted "/t/f.2.srt") :=
  ⟨(c6_resolver_collision_branches ⟨["/t/f.2.srt"], ["/t"]⟩
      (fun n => ⟨List.replicate n 'a'⟩) 0 "/s/f.srt" "/t" "f" "2" 1
      "/t/f.2.srt" "/t/f.a.2.srt"
      (by decide) (by decide) (by decide) (by decide) (by decide)
      (by decide) (by decide) (by decide) rfl rfl).1
      (by decide) (by decide),
   (c6_resolver_collision_branches ⟨["/t/f.2.srt"], ["/t"]⟩
      (fun n => ⟨List.replicate n 'a'⟩) 0 "/s/f.srt" "/t" "f" "2" 0
      "/t/f.2.srt" "/t/f.2.srt"
      (by decide) (by decide) (by decide) (by decide) (by decide)
      (by decide) (by decide) (by decide) rfl rfl).2
      rfl rfl (by decide)⟩

theorem foldr_max_le_of_mem {x : Nat} {l : List Nat} (h : x ∈ l) :
    x ≤ l.foldr max 0 := by
  induction l with
  | nil => cases h
  | cons a t ih =>
    rcases List.mem_cons.mp h with h | h
    · rw [h]
      exact le_max_left _ _
    · exact le_trans (ih h) (le_max_right _ _)

theorem path_exists_length_le (fs : FileSystem) (p : String)
    (h : path_exists fs p = true) : p.length ≤ max_path_len fs := by
  have hmem : p ∈ fs.files ∨ p ∈ fs.dirs := by
    simp [path_exists] at h
    exact h
  have hmem' : p ∈ fs.files ++ fs.dirs := List.mem_append.mpr hmem
  exact foldr_max_le_of_mem (List.mem_map_of_mem String.length hmem')

theorem make_name_slug_le (d f e sl su v : String)
    (h : make_name d f e (some sl) (some su) = .ok v)
    (hpos : 0 < sl.length) : sl.length + 2 ≤ v.length := by
  have hdot : ("." : String).length = 1 := rfl
  simp only [make_name, Option.getD_some] at h
  split at h
  · simp at h
  · split at h
    · rw [Except.ok.injEq] at h
      rw [← h]
      simp only [str_length_append, hdot]
      omega
    · split at h
      · rw [Except.ok.injEq] at h
        rw [← h]
        simp only [str_length_append, hdot]
        omega
      · split at h
        · rename_i hc3
          omega
        · rename_i hc1 hc2 hc3
          rw [not_and_or] at hc2
          rcases hc2 with hc2 | hc2 <;> omega

theorem eff_slug_succ (o2 : ResolveOptions) (m : Nat)
    (h : o2.slug_length = some ((m : Int) + 1)) : eff_slug o2 = m + 1 := by
  simp only [eff_slug, h]
  omega

theorem gtp_fuel_sufficient (fs : FileSystem) (gen : Nat → String)
    (hgen : ∀ n, (gen n).length = n) :
    ∀ (fuel : Nat) (fp : String) (o : ResolveOptions),
      max_path_len fs - eff_slug o < fuel →
      generate_target_path fs gen fuel fp o ≠ .outOfFuel := by
  intro fuel
  induction fuel with
  | zero =>
    intro fp o hlt
    exact absurd hlt (Nat.not_lt_zero _)
  | succ n ih =>
    intro fp o hlt heq
    simp only [generate_target_path] at heq
    split at heq
    · simp at heq
    · split at heq
      · simp at heq
      · split at heq
        · simp at heq
        · simp at heq
        · rename_i np nd hmk1 hmk2
          split at heq
          · simp at heq
          · split at heq
            · simp at heq
            · split at heq
              · rename_i hnp hnd hpos
                have hndt : path_exists fs nd = true := by
                  cases hb : path_exists fs nd
                  · exact absurd hb hnd
                  · rfl
                have hlen : nd.length ≤ max_path_len fs :=
                  path_exists_length_le fs nd hndt
                have hsl : (gen (eff_slug o)).length = eff_slug o := hgen _
                have hposl : 0 < (gen (eff_slug o)).length := by
                  rw [hsl]
                  exact hpos
                have hle : (gen (eff_slug o)).length + 2 ≤ nd.length :=
                  make_name_slug_le _ _ _ _ _ _ hmk2 hposl
                rw [hsl] at hle
                refine absurd heq (ih _ _ ?_)
                rw [eff_slug_succ _ (eff_slug o) rfl]
                omega
              · simp at heq

/-- C7: when both the plain and the slugged candidate exist and the slug
length is positive, the resolver retries with the slug length incremented
by one, pinning the destination directory, name and suffix it already
resolved (so only the slug length changes), and — since an honest slug
generator produces a slug of the requested length — the slug length grows
past the longest existing path, so on any finite filesystem the
disambiguation search terminates: fuel one more than the longest path
length is never exhausted, from any starting options. -/
theorem c7_slug_monotonicity_and_termination
    (fs : FileSystem) (gen : Nat → String) (fuel : Nat)
    (fp td tf suffix : String) (sl : Nat)
    (plain slugged : String)
    (hfp : strip_seps fp = fp) (habs : isabs fp = true)
    (htd : strip_seps td = td) (htdabs : isabs td = true) (htdne : td ≠ "")
    (htf : normalize_file_name tf = tf) (htfne : tf ≠ "") (htfsp : py_isspace tf = false)
    (hmkp : make_name td tf (get_extension fp) none (some suffix) = .ok plain)
    (hmks : make_name td tf (get_extension fp) (some (gen sl)) (some suffix) = .ok slugged)
    (hex : path_exists fs plain = true) (hexs : path_exists fs slugged = true)
    (hsl : 0 < sl) :
    generate_target_path fs gen (fuel + 1) fp
      { target_directory := some td, target_file := some tf,
        suffix := some suffix, slug_length := some ((sl : Int)) }
      = generate_target_path fs gen fuel fp
          { target_directory := some td, target_file := some tf,
            suffix := some suffix, slug_length := some ((sl : Int) + 1) }
    ∧ ((∀ n, (gen n).length = n) → ∀ (fp2 : String) (o2 : ResolveOptions),
        generate_target_path fs gen (max_path_len fs + 1) fp2 o2 ≠ .outOfFuel) := by
  have hslug : eff_slug { target_directory := some td, target_file := some tf,
                          suffix := some suffix,
                          slug_length := some ((sl : Int)) } = sl := by
    simp [eff_slug]
  constructor
  · simp only [generate_target_path, hfp, habs, htd, htdabs, hslug, extract_name]
    simp only [Bool.true_eq_false, if_false]
    simp [htf, htdne, htfne, htfsp, hmkp, hmks, hex, hexs, hsl]
  · intro hgen fp2 o2
    exact gtp_fuel_sufficient fs gen hgen (max_path_len fs + 1) fp2 o2
      (by omega)

/-- Witness for C7: one concrete retry step, and termination with the
sufficient fuel bound on the same filesystem. -/
theorem c7_slug_monotonicity_and_termination_witness :
    generate_target_path ⟨["/t/f.2.srt", "/t/f.a.2.srt"], ["/t"]⟩
      (fun n => ⟨List.replicate n 'a'⟩) 2 "/s/f.srt"
      { target_directory := some "/t", target_file := some "f",
        suffix := some "2", slug_length := some (((1 : Nat) : Int)) }
      = generate_target_path ⟨["/t/f.2.srt", "/t/f.a.2.srt"], ["/t"]⟩
          (fun n => ⟨List.replicate n 'a'⟩) 1 "/s/f.srt"
          { target_directory := some "/t", target_file := some "f",
            suffix := some "2", slug_length := some (((1 : Nat) : Int) + 1) }
    ∧ generate_target_path ⟨["/t/f.2.srt", "/t/f.a.2.srt"], ["/t"]⟩
        (fun n => ⟨List.replicate n 'a'⟩)
        (max_path_len ⟨["/t/f.2.srt", "/t/f.a.2.srt"], ["/t"]⟩ + 1)
        "/s/f.srt" {} ≠ .outOfFuel := by
  have h := c7_slug_monotonicity_and_termination
    ⟨["/t/f.2.srt", "/t/f.a.2.srt"], ["/t"]⟩ (fun n => ⟨List.replicate n 'a'⟩)
    1 "/s/f.srt" "/t" "f" "2" 1 "/t/f.2.srt" "/t/f.a.2.srt"
    (by decide) (by decide) (by decide) (by decide) (by decide)
    (by decide) (by decide) (by decide) rfl rfl
    (by decide) (by decide) (by decide)
  exact ⟨h.1, h.2 (fun n => by simp [String.length]) "/s/f.srt" {}⟩

theorem list_isPrefixOf_append (l t : List Char) : l.isPrefixOf (l ++ t) = true := by
  induction l with
  | nil => simp [List.isPrefixOf]
  | cons a as ih => simp [List.isPrefixOf, ih]

theorem py_startswith_append (a b : String) : py_startswith (a ++ b) a = true := by
  rcases a with ⟨la⟩; rcases b with ⟨lb⟩
  show (la.isPrefixOf (la ++ lb)) = true
  exact list_isPrefixOf_append la lb

/-- C8: an explicit target directory nested inside the source directory and
directly containing at least one regular file makes batch_convert fail with
the non-empty-target error for every conversion oracle — i.e. before any
file is discovered or converted; the check consults _contains_files (direct
children only) and is evaluated once, ahead of the walk. -/
theorem c8_nested_nonempty_target_rejected
    (fs : FileSystem) (convert : String → ResolveOptions → ConvertOutcome)
    (src r f : String) (o : BatchOptions)
    (hsrc : is_dir fs src = true)
    (hto : o.target_directory = some (src ++ "/" ++ r))
    (htdd : is_dir fs (src ++ "/" ++ r) = true)
    (hf : f ∈ fs.files) (hdf : dirname f = src ++ "/" ++ r) :
    batch_convert fs convert src o = .targetNotEmpty (src ++ "/" ++ r) src := by
  have hsw : py_startswith (src ++ "/" ++ r) src = true := by
    rw [str_append_assoc]
    exact py_startswith_append src ("/" ++ r)
  have hcf : contains_files fs (src ++ "/" ++ r) = true := by
    simp only [contains_files, htdd]
    simp only [Bool.true_eq_false, if_false]
    rw [List.any_eq_true]
    exact ⟨f, hf, by simp [hdf]⟩
  have hne : src ++ "/" ++ r ≠ "" := by
    intro hemp
    have hlen := congrArg String.length hemp
    rw [str_length_append, str_length_append] at hlen
    have h1 : ("/" : String).length = 1 := rfl
    have h0 : ("" : String).length = 0 := rfl
    omega
  have hht : has_target_dir o = true := by
    simp [has_target_dir, hto, hne]
  simp [batch_convert, hsrc, hto, os_abspath, hht, hsw, hcf]

/-- Witness for C8: concrete source /s with nested target /s/t containing
the stray regular file /s/t/x.txt. -/
theorem c8_nested_nonempty_target_rejected_witness :
    batch_convert ⟨["/s/t/x.txt", "/s/a.srt"], ["/s", "/s/t"]⟩
      (fun _ _ => .success) "/s" { target_directory := some "/s/t" }
      = .targetNotEmpty "/s/t" "/s" := by
  have h := c8_nested_nonempty_target_rejected
    ⟨["/s/t/x.txt", "/s/a.srt"], ["/s", "/s/t"]⟩ (fun _ _ => .success)
    "/s" "t" "/s/t/x.txt" { target_directory := some "/s/t" }
    (by decide) (by decide) (by decide) (by decide) (by decide)
  exact h

/-- The ledger batch_convert's walk builds when silent: each attempted file
whose conversion fails is mapped, in order, to its error message; files
that convert successfully leave no entry. -/
def failure_ledger (attempt : Nat → String → ConvertOutcome) :
    List String → Nat → List (String × String)
  | [], _ => []
  | sub :: rest, sequence =>
    match attempt sequence sub with
    | .success => failure_ledger attempt rest (sequence + 1)
    | .domainError msg => (sub, msg) :: failure_ledger attempt rest (sequence + 1)
    | .otherError msg => (sub, msg) :: failure_ledger attempt rest (sequence + 1)

/-- The result the walk raises at the first failing attempt when silent is
false (none when every attempt succeeds); attempts after the first failure
are never consulted. -/
def first_failure_result (attempt : Nat → String → ConvertOutcome) :
    List String → Nat → Option BatchResult
  | [], _ => none
  | sub :: rest, sequence =>
    match attempt sequence sub with
    | .success => first_failure_result attempt rest (sequence + 1)
    | .domainError msg => some (.raisedDomain msg)
    | .otherError msg => some (.raisedEncoding sub msg)

theorem batch_loop_silent_true (attempt : Nat → String → ConvertOutcome) :
    ∀ (subs : List String) (sequence : Nat) (failed : List (String × String)),
      batch_loop attempt true subs sequence failed =
        (if failed ++ failure_ledger attempt subs sequence = [] then .ok
         else .batchError (failed ++ failure_ledger attempt subs sequence).length
                (failed ++ failure_ledger attempt subs sequence)) := by
  intro subs
  induction subs with
  | nil =>
    intro sequence failed
    simp only [batch_loop, failure_ledger, List.append_nil]
    by_cases h : failed = []
    · simp [h]
    · have : 0 < failed.length := List.length_pos.mpr h
      simp [h, this]
  | cons s rest ih =>
    intro sequence failed
    simp only [batch_loop, failure_ledger]
    cases attempt sequence s with
    | success => exact ih (sequence + 1) failed
    | domainError msg =>
      simp only [Bool.true_eq_false, if_false, reduceCtorEq]
      rw [ih (sequence + 1) (failed ++ [(s, msg)])]
      simp [List.append_assoc]
    | otherError msg =>
      simp only [Bool.true_eq_false, if_false, reduceCtorEq]
      rw [ih (sequence + 1) (failed ++ [(s, msg)])]
      simp [List.append_assoc]

theorem batch_loop_silent_false (attempt : Nat → String → ConvertOutcome) :
    ∀ (subs : List String) (sequence : Nat) (failed : List (String × String)),
      batch_loop attempt false subs sequence failed =
        (match first_failure_result attempt subs sequence with
         | some res => res
         | none =>
           if 0 < failed.length then .batchError failed.length failed else .ok) := by
  intro subs
  induction subs with
  | nil =>
    intro sequence failed
    simp [batch_loop, first_failure_result]
  | cons s rest ih =>
    intro sequence failed
    simp only [batch_loop, first_failure_result]
    cases attempt sequence s with
    | success => exact ih (sequence + 1) failed
    | domainError msg => simp
    | otherError msg => simp

/-- C2: in batch_convert with silent true (the default, i.e. the option
absent or explicitly true), each per-file failure is recorded as an entry
mapping that file to its error message and the walk continues; after all
files are processed the aggregated batch error carrying the failure count
and the full file-to-message ledger is raised if and only if at least one
file failed.  With silent false the first per-file failure propagates
immediately (a domain error is re-raised, any other error is wrapped as the
encoding error naming the file) and the remaining attempts are never
consulted. -/
theorem c2_batch_failure_policy
    (fs : FileSystem) (convert : String → ResolveOptions → ConvertOutcome)
    (src : String) (o : BatchOptions)
    (hsrc : is_dir fs src = true) (htd : o.target_directory = none) :
    let o2 := { o with target_directory := (none : Option String) }
    let attempt := fun sequence sub =>
      convert sub (per_file_options o2 (effective_sequence_naming o2)
        (o2.suffix.getD "") sequence)
    let subs := discover_subtitles fs src o2.extensions
    ((o.silent = none ∨ o.silent = some true) →
      batch_convert fs convert src o =
        (if failure_ledger attempt subs 1 = [] then .ok
         else .batchError (failure_ledger attempt subs 1).length
                (failure_ledger attempt subs 1)))
    ∧ (o.silent = some false →
      batch_convert fs convert src o =
        (match first_failure_result attempt subs 1 with
         | some res => res
         | none => .ok)) := by
  intro o2 attempt subs
  have hht : has_target_dir o = false := by
    simp [has_target_dir, htd]
  constructor
  · intro hs
    have hsil : o.silent.getD true = true := by
      rcases hs with hs | hs <;> simp [hs]
    simp only [batch_convert, hsrc, htd, hht, os_abspath]
    simp only [Bool.true_eq_false, if_false, Bool.false_eq_true, false_and, and_false]
    rw [hsil, batch_loop_silent_true]
    rfl
  · intro hs
    have hsil : o.silent.getD true = false := by
      simp [hs]
    simp only [batch_convert, hsrc, htd, hht, os_abspath]
    simp only [Bool.true_eq_false, if_false, Bool.false_eq_true, false_and, and_false]
    rw [hsil, batch_loop_silent_false]
    rfl

/-- Witness for C2: a concrete batch where one of two files fails — with
default silent the aggregated error carries count 1 and the ledger entry,
and with silent false the domain error is re-raised immediately. -/
theorem c2_batch_failure_policy_witness :
    batch_convert ⟨["/s/a.srt", "/s/b.srt"], ["/s"]⟩
      (fun sub _ => if sub = "/s/a.srt" then .domainError "boom" else .success)
      "/s" {} = .batchError 1 [("/s/a.srt", "boom")]
    ∧ batch_convert ⟨["/s/a.srt", "/s/b.srt"], ["/s"]⟩
      (fun sub _ => if sub = "/s/a.srt" then .domainError "boom" else .success)
      "/s" { silent := some false } = .raisedDomain "boom" := by
  constructor
  · have h := (c2_batch_failure_policy ⟨["/s/a.srt", "/s/b.srt"], ["/s"]⟩
      (fun sub _ => if sub = "/s/a.srt" then .domainError "boom" else .success)
      "/s" {} (by decide) rfl).1 (Or.inl rfl)
    rw [h]
    decide
  · have h := (c2_batch_failure_policy ⟨["/s/a.srt", "/s/b.srt"], ["/s"]⟩
      (fun sub _ => if sub = "/s/a.srt" then .domainError "boom" else .success)
      "/s" { silent := some false } (by decide) rfl).2 rfl
    rw [h]
    decide
